import Mathlib

/-
Verification of the registration + dispatch + validation core of the
rasa-sdk action executor (src/rasa_sdk/executor.py).

The embedding models Python values with the inductive type `Value`
(dictionaries are association lists with unique keys, as Python
guarantees), message dictionaries with `Msg`, and logging side effects
by returning explicit lists of `LogEntry`.  `CollectingDispatcher`,
`ActionExecutor.validate_events`, `ActionExecutor.register_function`
and `ActionExecutor.run` are translations of the classes and methods
of the same names in executor.py.
-/

namespace RasaSdk

/-- A Python value as handled by the executor: None, booleans, integers,
strings, lists, dictionaries (association lists, insertion ordered, keys
unique as for genuine Python dicts), and non-builtin objects.  An object
carries the module name of its type (used by the check
type(e).__module__ == "rasa.core.events" in validate_events) and the
record its as_dict adapter returns. -/
inductive Value where
  | none : Value
  | bool : Bool → Value
  | int : Int → Value
  | str : String → Value
  | list : List Value → Value
  | dict : List (String × Value) → Value
  | obj : String → List (String × Value) → Value

/-- A message or event dictionary: string keys to Python values. -/
abbrev Msg := List (String × Value)

/-- Python truthiness: None, False, 0, the empty string, the empty list
and the empty dict are falsy; non-builtin objects are truthy. -/
def truthy : Value → Bool
  | Value.none => false
  | Value.bool b => b
  | Value.int n => decide (n ≠ 0)
  | Value.str s => decide (s ≠ "")
  | Value.list l => !l.isEmpty
  | Value.dict d => !d.isEmpty
  | Value.obj _ _ => true

/-- Python dict lookup d.get(k): the value at the first (unique) matching
key, if any. -/
def getKey {α : Type} : List (String × α) → String → Option α
  | [], _ => Option.none
  | kv :: rest, k => if kv.1 = k then Option.some kv.2 else getKey rest k

/-- Python dict item assignment d[k] = v: overwrite the entry with key k
in place if present, otherwise append a new entry.  On dictionaries with
unique keys this is exactly the CPython semantics. -/
def setKey {α : Type} : List (String × α) → String → α → List (String × α)
  | [], k, v => [(k, v)]
  | kv :: rest, k, v => if kv.1 = k then (k, v) :: rest else kv :: setKey rest k v

/-- Python dict.update(extras): assign each entry of extras in order. -/
def updateKeys {α : Type} (d : List (String × α)) (extras : List (String × α)) :
    List (String × α) :=
  extras.foldl (fun acc kv => setKey acc kv.1 kv.2) d

/-- Number of entries of an association list carrying the given key. -/
def countKey {α : Type} : List (String × α) → String → Nat
  | [], _ => 0
  | kv :: rest, k => (if kv.1 = k then 1 else 0) + countKey rest k

/-- Python iteration over a value, as used by the for loop of
validate_events: lists yield their elements, strings their characters,
dicts their keys; other values are not iterable (a TypeError). -/
def pyIter : Value → Option (List Value)
  | Value.list l => Option.some l
  | Value.str s => Option.some (s.data.map (fun c => Value.str (String.mk [c])))
  | Value.dict d => Option.some (d.map (fun kv => Value.str kv.1))
  | _ => Option.none

/-- Severity of a log call in executor.py. -/
inductive LogLevel where
  | debug : LogLevel
  | info : LogLevel
  | warning : LogLevel
  | error : LogLevel
deriving DecidableEq

/-- One logging side effect: its level, a fixed message text, and the
action name and offending value formatted into the message, when any. -/
structure LogEntry where
  level : LogLevel
  msg : String
  action : Option Value
  payload : Option Value

/-- Translation of CollectingDispatcher: accumulates the messages sent
back to the user, in emission order. -/
structure CollectingDispatcher where
  messages : List Msg

/-- utter_message: message = set of text, updated with the kwargs. -/
def CollectingDispatcher.utter_message (self : CollectingDispatcher)
    (text : Value) (kwargs : Msg) : CollectingDispatcher :=
  ⟨self.messages ++ [updateKeys [("text", text)] kwargs]⟩

/-- utter_elements: message with text None and the elements tuple. -/
def CollectingDispatcher.utter_elements (self : CollectingDispatcher)
    (elements : List Value) (kwargs : Msg) : CollectingDispatcher :=
  ⟨self.messages ++ [updateKeys [("text", Value.none), ("elements", Value.list elements)] kwargs]⟩

/-- utter_custom_message (deprecated): forwards the whole elements tuple
to utter_elements as a single positional argument, so the stored
elements value is a one-element tuple holding the original tuple. -/
def CollectingDispatcher.utter_custom_message (self : CollectingDispatcher)
    (elements : List Value) (kwargs : Msg) : CollectingDispatcher :=
  self.utter_elements [Value.list elements] kwargs

/-- utter_button_message: message with text and buttons. -/
def CollectingDispatcher.utter_button_message (self : CollectingDispatcher)
    (text : Value) (buttons : List Value) (kwargs : Msg) : CollectingDispatcher :=
  ⟨self.messages ++ [updateKeys [("text", text), ("buttons", Value.list buttons)] kwargs]⟩

/-- utter_attachment: message with text None and the attachment. -/
def CollectingDispatcher.utter_attachment (self : CollectingDispatcher)
    (attachment : Value) (kwargs : Msg) : CollectingDispatcher :=
  ⟨self.messages ++ [updateKeys [("text", Value.none), ("attachment", attachment)] kwargs]⟩

/-- utter_button_template: message with template and buttons; the
tracker and silent flag parameters are accepted and unused. -/
def CollectingDispatcher.utter_button_template (self : CollectingDispatcher)
    (template : Value) (buttons : List Value) (_tracker : Value) (_silent : Bool)
    (kwargs : Msg) : CollectingDispatcher :=
  ⟨self.messages ++ [updateKeys [("template", template), ("buttons", Value.list buttons)] kwargs]⟩

/-- utter_template: message with the template; the tracker and silent
flag parameters are accepted and unused. -/
def CollectingDispatcher.utter_template (self : CollectingDispatcher)
    (template : Value) (_tracker : Value) (_silent : Bool)
    (kwargs : Msg) : CollectingDispatcher :=
  ⟨self.messages ++ [updateKeys [("template", template)] kwargs]⟩

/-- utter_custom_json: message with the custom payload. -/
def CollectingDispatcher.utter_custom_json (self : CollectingDispatcher)
    (json_message : Value) (kwargs : Msg) : CollectingDispatcher :=
  ⟨self.messages ++ [updateKeys [("custom", json_message)] kwargs]⟩

/-- utter_image_url: message with the image url. -/
def CollectingDispatcher.utter_image_url (self : CollectingDispatcher)
    (image : Value) (kwargs : Msg) : CollectingDispatcher :=
  ⟨self.messages ++ [updateKeys [("image", image)] kwargs]⟩

/-- Modelled from the spec: TrackerState is an opaque structured value
built from the tracker payload of the request by an external
collaborator (rasa_sdk.interfaces.Tracker.from_dict, outside src/); the
core passes it through unexamined, so it is modelled as a wrapper around
the raw payload. -/
structure Tracker where
  data : Value

/-- Modelled from the spec: building the tracker from the request
payload is delegated wholesale, so it is the wrapper constructor. -/
def Tracker.from_dict (v : Value) : Tracker := ⟨v⟩

/-- A handler invocation: receives the fresh dispatcher, the tracker and
the domain, and yields the (possibly mutated) dispatcher and the raw
return value. -/
abbrev Handler := CollectingDispatcher → Tracker → Value → CollectingDispatcher × Value

/-- Modelled from the spec: a registrable Python function value together
with its declared parameter list, as reported by the external static
arity inspection (rasa_sdk.utils.arguments_of, outside src/). -/
structure PyFunc where
  params : List String
  run : Handler

/-- Translation of ActionExecutor: its registry of actions, a dict from
action name to registered function. -/
structure ActionExecutor where
  actions : List (String × PyFunc)

/-- Message of the exception raised on registering a function of fewer
than three parameters. -/
def arityErrorMsg (n : Nat) : String :=
  ("You can only register functions that take 3 parameters as arguments. ")
    ++ ("Your function accepts only ") ++ toString n ++ (" parameters.")

/-- register_function: raise unless the function declares at least three
parameters, otherwise insert or overwrite the registry entry. -/
def ActionExecutor.register_function (self : ActionExecutor) (name : String)
    (f : PyFunc) : Except String ActionExecutor :=
  if f.params.length < 3 then Except.error (arityErrorMsg f.params.length)
  else Except.ok ⟨setKey self.actions name f⟩

/-- Diagnostic logged for an event dict without a truthy event field. -/
def noEventLog (action_name : Value) (e : Value) : LogEntry :=
  ⟨LogLevel.error,
    ("Your action returned an action dict without the event property. Event will be ignored."),
    Option.some action_name, Option.some e⟩

/-- Warning logged when a rasa.core.events object is converted. -/
def foreignEventLog : LogEntry :=
  ⟨LogLevel.warning,
    ("Your action should not return Rasa actions within the SDK. We will try to make this work, but this might go wrong."),
    Option.none, Option.none⟩

/-- Diagnostic logged for a returned item that is neither a dict nor a
rasa.core.events object. -/
def invalidEventLog (action_name : Value) (e : Value) : LogEntry :=
  ⟨LogLevel.error,
    ("Your actions run method returned an invalid event. Event will be ignored."),
    Option.some action_name, Option.some e⟩

/-- The test not e.get("event") of validate_events: the event key must
be present and its value truthy. -/
def eventTruthy (d : Msg) : Bool :=
  match getKey d ("event") with
  | Option.some v => truthy v
  | Option.none => false

/-- Translation of ActionExecutor.validate_events: filter the raw items
a handler returned, collecting the accepted events and the diagnostics
in item order. -/
def ActionExecutor.validate_events (events : List Value) (action_name : Value) :
    List Value × List LogEntry :=
  match events with
  | [] => ([], [])
  | e :: rest =>
    let tail := ActionExecutor.validate_events rest action_name
    match e with
    | Value.dict d =>
      if eventTruthy d then (Value.dict d :: tail.1, tail.2)
      else (tail.1, noEventLog action_name (Value.dict d) :: tail.2)
    | Value.obj mod d =>
      if mod = ("rasa.core.events") then (Value.dict d :: tail.1, foreignEventLog :: tail.2)
      else (tail.1, invalidEventLog action_name (Value.obj mod d) :: tail.2)
    | e2 => (tail.1, invalidEventLog action_name e2 :: tail.2)

/-- Translation of ActionExecutor._create_api_response. -/
def create_api_response (events : List Value) (messages : List Msg) : Msg :=
  [("events", Value.list events), ("responses", Value.list (messages.map Value.dict))]

/-- Outcome of one run call: a response dict, a raised exception, or the
implicit None return of the branch without an action name. -/
inductive RunResult where
  | response : Msg → RunResult
  | raised : String → RunResult
  | noResponse : RunResult

/-- The text rendered into a message for an action name value. -/
def valueText : Value → String
  | Value.str s => s
  | _ => ("")

/-- Message of the exception raised for an unregistered action name. -/
def notFoundMsg (name : Value) : String :=
  ("No registered Action found for name ") ++ valueText name

/-- Debug log on receiving a request naming an action. -/
def receivedLog (name : Value) : LogEntry :=
  ⟨LogLevel.debug, ("Received request to run"), Option.some name, Option.none⟩

/-- Debug log after the action ran. -/
def finishedLog (name : Value) : LogEntry :=
  ⟨LogLevel.debug, ("Finished running"), Option.some name, Option.none⟩

/-- Warning logged when the request carries no action name. -/
def noActionLog : LogEntry :=
  ⟨LogLevel.warning, ("Received an action call without an action."),
    Option.none, Option.none⟩

/-- Registry lookup self.actions.get(action_name): the registry keys are
strings, so any non-string name misses. -/
def lookupAction (acts : List (String × PyFunc)) (name : Value) : Option PyFunc :=
  match name with
  | Value.str s => getKey acts s
  | _ => Option.none

/-- Translation of ActionExecutor.run: resolve the action name, invoke
the handler on a fresh dispatcher, normalize a falsy return to an empty
list, validate the events and assemble the api response; without a
truthy action name, warn and return nothing. -/
def ActionExecutor.run (self : ActionExecutor) (action_call : Msg) :
    RunResult × List LogEntry :=
  let action_name := (getKey action_call ("next_action")).getD Value.none
  if truthy action_name then
    match lookupAction self.actions action_name with
    | Option.none => (RunResult.raised (notFoundMsg action_name), [receivedLog action_name])
    | Option.some f =>
      let tracker := Tracker.from_dict ((getKey action_call ("tracker")).getD Value.none)
      let domain := (getKey action_call ("domain")).getD (Value.dict [])
      let r := f.run ⟨[]⟩ tracker domain
      let events := if truthy r.2 then r.2 else Value.list []
      match pyIter events with
      | Option.none =>
        (RunResult.raised ("TypeError: object is not iterable"), [receivedLog action_name])
      | Option.some evs =>
        let v := ActionExecutor.validate_events evs action_name
        (RunResult.response (create_api_response v.1 r.1.messages),
          receivedLog action_name :: v.2 ++ [finishedLog action_name])
  else
    (RunResult.noResponse, [noActionLog])

/-- Classification of one raw item by validate_events: the accepted
event record it contributes, if any. -/
def acceptItem : Value → Option Value
  | Value.dict d => if eventTruthy d then Option.some (Value.dict d) else Option.none
  | Value.obj mod d =>
    if mod = ("rasa.core.events") then Option.some (Value.dict d) else Option.none
  | _ => Option.none

/-- Whether a log entry is an error-level diagnostic. -/
def isErrorLog (g : LogEntry) : Bool :=
  g.level = LogLevel.error

/-- The slot event of the end-to-end scenario. -/
def slotEvent : Value :=
  Value.dict [("event", Value.str ("slot")), ("name", Value.str ("x")), ("value", Value.int 1)]

/-- The greet handler of the end-to-end scenario: says hello through the
dispatcher and returns the one slot event. -/
def greetHandler : PyFunc :=
  ⟨["dispatcher", "tracker", "domain"],
    fun d _ _ => (d.utter_message (Value.str ("hello")) [], Value.list [slotEvent])⟩

/-- An executor with only the greet handler registered. -/
def greetExec : ActionExecutor := ⟨[("greet", greetHandler)]⟩

/-- The request of the end-to-end scenario. -/
def greetCall : Msg :=
  [("next_action", Value.str ("greet")), ("tracker", Value.dict []), ("domain", Value.dict [])]

/-- A three-parameter handler returning None. -/
def handlerA : PyFunc :=
  ⟨["dispatcher", "tracker", "domain"], fun d _ _ => (d, Value.none)⟩

/-- Another three-parameter handler, returning an empty list. -/
def handlerB : PyFunc :=
  ⟨["dispatcher", "tracker", "domain"], fun d _ _ => (d, Value.list [])⟩

/-- A handler declaring four parameters. -/
def fourParamFunc : PyFunc :=
  ⟨["dispatcher", "tracker", "domain", "extra"], fun d _ _ => (d, Value.none)⟩

/-- The raw return value of the validator example: a well-formed slot
event, a dict without the event field, and a bare string. -/
def exampleRawEvents : List Value :=
  [slotEvent, Value.dict [("foo", Value.str ("bar"))], Value.str ("not-a-record")]

/- General lemmas about the embedded operations. -/

/-- Lookup after assignment: the assigned key reads back the new value
and every other key is unaffected. -/
theorem getKey_setKey {α : Type} (d : List (String × α)) (k : String) (v : α)
    (k' : String) :
    getKey (setKey d k v) k' = if k' = k then Option.some v else getKey d k' := by
  induction d with
  | nil =>
    simp only [setKey, getKey]
    by_cases h : k = k'
    · simp [h]
    · simp [h, Ne.symm h]
  | cons kv rest ih =>
    by_cases hk : kv.1 = k
    · by_cases h : k = k'
      · simp [setKey, getKey, hk, h]
      · simp [setKey, getKey, hk, h, Ne.symm h]
    · by_cases h : kv.1 = k'
      · have hne : ¬ k' = k := fun hh => hk (hh ▸ h)
        simp [setKey, getKey, hk, h, hne]
      · simp [setKey, getKey, hk, h, ih]

/-- A key outside the key list is not found. -/
theorem getKey_eq_none {α : Type} (d : List (String × α)) (k : String)
    (h : k ∉ d.map Prod.fst) : getKey d k = Option.none := by
  induction d with
  | nil => simp [getKey]
  | cons kv rest ih =>
    simp only [List.map_cons, List.mem_cons] at h
    push_neg at h
    simp [getKey, Ne.symm h.1, ih h.2]

/-- updateKeys unfolds one assignment at a time. -/
theorem updateKeys_cons {α : Type} (d : List (String × α)) (kv : String × α)
    (es : List (String × α)) :
    updateKeys d (kv :: es) = updateKeys (setKey d kv.1 kv.2) es := rfl

/-- Structured merge: on a dict updated with extras whose keys are
unique, lookup prefers the extras value and falls back to the base
value. -/
theorem getKey_updateKeys {α : Type} (d extras : List (String × α)) (k : String)
    (hnd : (extras.map Prod.fst).Nodup) :
    getKey (updateKeys d extras) k
      = if (getKey extras k).isSome then getKey extras k else getKey d k := by
  induction extras generalizing d with
  | nil => simp [updateKeys, getKey]
  | cons kv es ih =>
    simp only [List.map_cons, List.nodup_cons] at hnd
    rw [updateKeys_cons, ih _ hnd.2]
    by_cases hk : kv.1 = k
    · subst hk
      have hnone : getKey es kv.1 = Option.none := getKey_eq_none es kv.1 hnd.1
      simp [getKey, hnone, getKey_setKey]
    · by_cases hs : (getKey es k).isSome
      · simp [getKey, hk, hs]
      · simp [getKey, hk, hs, getKey_setKey, Ne.symm hk]

/-- A key outside the key list occurs zero times. -/
theorem countKey_eq_zero {α : Type} (d : List (String × α)) (k : String)
    (h : k ∉ d.map Prod.fst) : countKey d k = 0 := by
  induction d with
  | nil => rfl
  | cons kv rest ih =>
    simp only [List.map_cons, List.mem_cons] at h
    push_neg at h
    simp [countKey, Ne.symm h.1, ih h.2]

/-- On a dict with unique keys, assignment leaves exactly one entry
under the assigned key. -/
theorem countKey_setKey {α : Type} (d : List (String × α)) (k : String) (v : α)
    (hnd : (d.map Prod.fst).Nodup) : countKey (setKey d k v) k = 1 := by
  induction d with
  | nil => simp [setKey, countKey]
  | cons kv rest ih =>
    simp only [List.map_cons, List.nodup_cons] at hnd
    by_cases hk : kv.1 = k
    · simp [setKey, countKey, hk, countKey_eq_zero rest k (hk ▸ hnd.1)]
    · simp [setKey, countKey, hk, ih hnd.2]

/-- Every key of an assigned dict is an old key or the assigned key. -/
theorem mem_map_fst_setKey {α : Type} (d : List (String × α)) (k : String) (v : α)
    (x : String) (h : x ∈ (setKey d k v).map Prod.fst) :
    x ∈ d.map Prod.fst ∨ x = k := by
  induction d with
  | nil => simpa [setKey] using h
  | cons kv rest ih =>
    by_cases hk : kv.1 = k
    · simp only [setKey, if_pos hk, List.map_cons, List.mem_cons] at h
      rcases h with h | h
      · exact Or.inr h
      · exact Or.inl (by simp [h])
    · simp only [setKey, if_neg hk, List.map_cons, List.mem_cons] at h
      rcases h with h | h
      · exact Or.inl (by simp [h])
      · rcases ih h with h2 | h2
        · exact Or.inl (by simp [h2])
        · exact Or.inr h2

/-- Assignment preserves uniqueness of the keys. -/
theorem nodup_setKey {α : Type} (d : List (String × α)) (k : String) (v : α)
    (hnd : (d.map Prod.fst).Nodup) : ((setKey d k v).map Prod.fst).Nodup := by
  induction d with
  | nil => simp [setKey]
  | cons kv rest ih =>
    simp only [List.map_cons, List.nodup_cons] at hnd
    by_cases hk : kv.1 = k
    · subst hk
      have hset : setKey (kv :: rest) kv.1 v = (kv.1, v) :: rest := by
        simp [setKey]
      rw [hset]
      simp only [List.map_cons, List.nodup_cons]
      exact ⟨hnd.1, hnd.2⟩
    · simp only [setKey, if_neg hk, List.map_cons, List.nodup_cons]
      refine ⟨fun hmem => ?_, ih hnd.2⟩
      rcases mem_map_fst_setKey rest k v kv.1 hmem with h | h
      · exact hnd.1 h
      · exact hk h

/-- The validator distributes over list concatenation, for both the
accepted events and the diagnostics. -/
theorem validate_events_append (xs ys : List Value) (a : Value) :
    ActionExecutor.validate_events (xs ++ ys) a
      = ((ActionExecutor.validate_events xs a).1 ++ (ActionExecutor.validate_events ys a).1,
         (ActionExecutor.validate_events xs a).2 ++ (ActionExecutor.validate_events ys a).2) := by
  induction xs with
  | nil => simp [ActionExecutor.validate_events]
  | cons e rest ih =>
    cases e with
    | none => simp [ActionExecutor.validate_events, ih]
    | bool b => simp [ActionExecutor.validate_events, ih]
    | int n => simp [ActionExecutor.validate_events, ih]
    | str s => simp [ActionExecutor.validate_events, ih]
    | list l => simp [ActionExecutor.validate_events, ih]
    | dict d =>
      by_cases h : eventTruthy d <;> simp [ActionExecutor.validate_events, h, ih]
    | obj mod d =>
      by_cases h : mod = ("rasa.core.events") <;>
        simp [ActionExecutor.validate_events, h, ih]

/-- Normalizing a returned list through the falsy check is the
identity: an empty list is replaced by the empty list. -/
theorem normalize_list (l : List Value) :
    (if truthy (Value.list l) then Value.list l else Value.list []) = Value.list l := by
  cases l <;> simp [truthy]

/-- The accepted events are exactly the item-wise classification of the
input, in input order. -/
theorem validate_events_fst_filterMap (l : List Value) (a : Value) :
    (ActionExecutor.validate_events l a).1 = l.filterMap acceptItem := by
  induction l with
  | nil => rfl
  | cons e rest ih =>
    cases e with
    | none => simp [ActionExecutor.validate_events, acceptItem, ih]
    | bool b => simp [ActionExecutor.validate_events, acceptItem, ih]
    | int n => simp [ActionExecutor.validate_events, acceptItem, ih]
    | str s => simp [ActionExecutor.validate_events, acceptItem, ih]
    | list l2 => simp [ActionExecutor.validate_events, acceptItem, ih]
    | dict d =>
      by_cases h : eventTruthy d <;>
        simp [ActionExecutor.validate_events, acceptItem, h, ih]
    | obj mod d =>
      by_cases h : mod = ("rasa.core.events") <;>
        simp [ActionExecutor.validate_events, acceptItem, h, ih]

/-- Each dropped item produces exactly one error-level diagnostic. -/
theorem validate_events_error_count (l : List Value) (a : Value) :
    ((ActionExecutor.validate_events l a).2.filter isErrorLog).length
      = (l.filter (fun e => (acceptItem e).isNone)).length := by
  induction l with
  | nil => rfl
  | cons e rest ih =>
    cases e with
    | none => simp [ActionExecutor.validate_events, acceptItem, invalidEventLog, isErrorLog, ih]
    | bool b => simp [ActionExecutor.validate_events, acceptItem, invalidEventLog, isErrorLog, ih]
    | int n => simp [ActionExecutor.validate_events, acceptItem, invalidEventLog, isErrorLog, ih]
    | str s => simp [ActionExecutor.validate_events, acceptItem, invalidEventLog, isErrorLog, ih]
    | list l2 => simp [ActionExecutor.validate_events, acceptItem, invalidEventLog, isErrorLog, ih]
    | dict d =>
      by_cases h : eventTruthy d <;>
        simp [ActionExecutor.validate_events, acceptItem, noEventLog, isErrorLog, h, ih]
    | obj mod d =>
      by_cases h : mod = ("rasa.core.events") <;>
        simp [ActionExecutor.validate_events, acceptItem, foreignEventLog,
          invalidEventLog, isErrorLog, h, ih]

/- Claim theorems. -/

/-- C2, counterexample: a key-value mapping that carries the `event` key
(bound to None) is dropped by the validator with a diagnostic, so mere
presence of the discriminator field is not what acceptance tests. -/
theorem validate_events_presence_insufficient :
    getKey [("event", Value.none)] ("event") = Option.some Value.none
    ∧ (ActionExecutor.validate_events [Value.dict [("event", Value.none)]] (Value.str ("a"))).1 = []
    ∧ (ActionExecutor.validate_events [Value.dict [("event", Value.none)]] (Value.str ("a"))).2.length = 1 :=
  ⟨rfl, rfl, rfl⟩

/-- C2, amended: the validator accepts a key-value-mapping item if and
only if its `event` field is present with a truthy value; every dropped
item yields exactly one error diagnostic; the computation is total
(never raises) and preserves the relative order of accepted items, as
expressed by the filterMap characterization; on the given example it
returns exactly the slot event with two diagnostics. -/
theorem validate_events_characterization (l : List Value) (a : Value) :
    (ActionExecutor.validate_events l a).1 = l.filterMap acceptItem
    ∧ ((ActionExecutor.validate_events l a).2.filter isErrorLog).length
        = (l.filter (fun e => (acceptItem e).isNone)).length
    ∧ (ActionExecutor.validate_events exampleRawEvents a).1 = [slotEvent]
    ∧ (ActionExecutor.validate_events exampleRawEvents a).2.length = 2 :=
  ⟨validate_events_fst_filterMap l a, validate_events_error_count l a, rfl, rfl⟩

/-- C9: a mapping whose `event` key is bound to a falsy value is dropped
with the same missing-discriminator diagnostic as a mapping lacking the
key, leaving the surrounding items untouched. -/
theorem validate_events_falsy_event_dropped (pre post : List Value) (a : Value)
    (d : Msg) (v : Value)
    (hget : getKey d ("event") = Option.some v) (hv : truthy v = false) :
    ActionExecutor.validate_events (pre ++ Value.dict d :: post) a
      = ((ActionExecutor.validate_events pre a).1 ++ (ActionExecutor.validate_events post a).1,
         (ActionExecutor.validate_events pre a).2
           ++ noEventLog a (Value.dict d) :: (ActionExecutor.validate_events post a).2) := by
  have ht : eventTruthy d = false := by simp [eventTruthy, hget, hv]
  rw [validate_events_append]
  simp [ActionExecutor.validate_events, ht]

/-- C9, witness: the falsy-discriminator theorem applied to the mapping
binding event to None. -/
theorem validate_events_falsy_event_dropped_witness :
    getKey [("event", Value.none)] ("event") = Option.some Value.none
    ∧ truthy Value.none = false
    ∧ ActionExecutor.validate_events [Value.dict [("event", Value.none)]] (Value.str ("b"))
        = ([], [noEventLog (Value.str ("b")) (Value.dict [("event", Value.none)])]) :=
  ⟨rfl, rfl, by
    have h := validate_events_falsy_event_dropped [] [] (Value.str ("b"))
      [("event", Value.none)] Value.none rfl rfl
    exact h⟩

/-- C6: an object of the host framework event family (type module
rasa.core.events) is converted through its as_dict adapter, accepted at
its position, and a warning is emitted; it is never dropped and the
validation never fails on it. -/
theorem validate_events_foreign_converted (pre post : List Value) (a : Value) (d : Msg) :
    ActionExecutor.validate_events (pre ++ Value.obj ("rasa.core.events") d :: post) a
      = ((ActionExecutor.validate_events pre a).1
           ++ Value.dict d :: (ActionExecutor.validate_events post a).1,
         (ActionExecutor.validate_events pre a).2
           ++ foreignEventLog :: (ActionExecutor.validate_events post a).2) := by
  rw [validate_events_append]
  simp [ActionExecutor.validate_events]

/-- C3, counterexample: a function declaring four parameters is not of
exactly three parameters, yet register_function accepts it, because the
code only rejects fewer than three. -/
theorem register_function_four_params_accepted :
    fourParamFunc.params.length = 4
    ∧ ActionExecutor.register_function ⟨[]⟩ ("x") fourParamFunc
        = Except.ok ⟨[("x", fourParamFunc)]⟩ :=
  ⟨rfl, rfl⟩

/-- C3, amended: register_function raises the contract-violation error
exactly when the function declares fewer than three parameters (leaving
the registry unchanged, as no new executor is produced); with three or
more parameters the registration succeeds and the handler becomes
reachable under the name. -/
theorem register_function_arity (ex : ActionExecutor) (name : String) (f : PyFunc) :
    (f.params.length < 3
        ∧ ex.register_function name f = Except.error (arityErrorMsg f.params.length))
    ∨ (3 ≤ f.params.length
        ∧ ex.register_function name f = Except.ok ⟨setKey ex.actions name f⟩
        ∧ lookupAction (setKey ex.actions name f) (Value.str name) = Option.some f) := by
  by_cases h : f.params.length < 3
  · exact Or.inl ⟨h, by simp [ActionExecutor.register_function, h]⟩
  · refine Or.inr ⟨by omega, by simp [ActionExecutor.register_function, h], ?_⟩
    simp [lookupAction, getKey_setKey]

/-- C5: each message constructor appends its fixed base record updated
key-wise with the extras, the extras value winning on any key collision
and non-colliding extras keys being appended alongside; in particular
utter_message of hi with a quick_replies extra yields the record with
both fields. -/
theorem collector_message_merge (d : CollectingDispatcher) (base extras : Msg)
    (k : String) (text attachment json image template tr : Value)
    (elements buttons : List Value) (sf : Bool)
    (hnd : (extras.map Prod.fst).Nodup) :
    (getKey (updateKeys base extras) k
        = if (getKey extras k).isSome then getKey extras k else getKey base k)
    ∧ (d.utter_message text extras).messages
        = d.messages ++ [updateKeys [("text", text)] extras]
    ∧ (d.utter_elements elements extras).messages
        = d.messages ++ [updateKeys [("text", Value.none), ("elements", Value.list elements)] extras]
    ∧ (d.utter_button_message text buttons extras).messages
        = d.messages ++ [updateKeys [("text", text), ("buttons", Value.list buttons)] extras]
    ∧ (d.utter_attachment attachment extras).messages
        = d.messages ++ [updateKeys [("text", Value.none), ("attachment", attachment)] extras]
    ∧ (d.utter_button_template template buttons tr sf extras).messages
        = d.messages ++ [updateKeys [("template", template), ("buttons", Value.list buttons)] extras]
    ∧ (d.utter_template template tr sf extras).messages
        = d.messages ++ [updateKeys [("template", template)] extras]
    ∧ (d.utter_custom_json json extras).messages
        = d.messages ++ [updateKeys [("custom", json)] extras]
    ∧ (d.utter_image_url image extras).messages
        = d.messages ++ [updateKeys [("image", image)] extras]
    ∧ ((CollectingDispatcher.mk []).utter_message (Value.str ("hi"))
          [("quick_replies", Value.list [Value.str ("yes")])]).messages
        = [[("text", Value.str ("hi")), ("quick_replies", Value.list [Value.str ("yes")])]] :=
  ⟨getKey_updateKeys base extras k hnd, rfl, rfl, rfl, rfl, rfl, rfl, rfl, rfl, rfl⟩

/-- C5, witness: the merge theorem applied with an extras map that
collides on the fixed text field: the extras value wins. -/
theorem collector_message_merge_witness :
    getKey (updateKeys [("text", Value.str ("hi"))] [("text", Value.str ("ho"))]) ("text")
      = Option.some (Value.str ("ho")) := by
  have h := collector_message_merge (CollectingDispatcher.mk [])
    [("text", Value.str ("hi"))] [("text", Value.str ("ho"))] ("text")
    Value.none Value.none Value.none Value.none Value.none Value.none [] [] false
    (by simp)
  exact h.1.trans (by rfl)

/-- C8: a successful registration is reachable under its name, keeps the
registry keys unique, survives any registration under a different name,
and a second registration under the same name leaves the last handler
as the single entry reachable under that name. -/
theorem registry_last_wins (ex : ActionExecutor) (name name2 : String) (f g : PyFunc)
    (ex1 : ActionExecutor)
    (hnd : (ex.actions.map Prod.fst).Nodup)
    (hok : ex.register_function name f = Except.ok ex1) :
    lookupAction ex1.actions (Value.str name) = Option.some f
    ∧ (ex1.actions.map Prod.fst).Nodup
    ∧ (∀ ex2 : ActionExecutor, ex1.register_function name2 g = Except.ok ex2 →
        (name2 ≠ name → lookupAction ex2.actions (Value.str name) = Option.some f)
        ∧ (name2 = name →
            lookupAction ex2.actions (Value.str name) = Option.some g
            ∧ countKey ex2.actions name = 1)) := by
  have hex1 : ex1.actions = setKey ex.actions name f := by
    by_cases h : f.params.length < 3
    · simp [ActionExecutor.register_function, h] at hok
    · simp only [ActionExecutor.register_function, if_neg h, Except.ok.injEq] at hok
      rw [← hok]
  have hnd1 : (ex1.actions.map Prod.fst).Nodup := by
    rw [hex1]; exact nodup_setKey ex.actions name f hnd
  have hlk1 : lookupAction ex1.actions (Value.str name) = Option.some f := by
    simp [lookupAction, hex1, getKey_setKey]
  refine ⟨hlk1, hnd1, fun ex2 hok2 => ?_⟩
  have hex2 : ex2.actions = setKey ex1.actions name2 g := by
    by_cases h : g.params.length < 3
    · simp [ActionExecutor.register_function, h] at hok2
    · simp only [ActionExecutor.register_function, if_neg h, Except.ok.injEq] at hok2
      rw [← hok2]
  constructor
  · intro hne
    simp only [lookupAction, hex2, getKey_setKey, if_neg (Ne.symm hne)]
    simpa [lookupAction] using hlk1
  · intro heq
    subst heq
    constructor
    · simp [lookupAction, hex2, getKey_setKey]
    · rw [hex2]
      exact countKey_setKey ex1.actions name2 g hnd1

/-- C8, witness: register handlerA under n, then handlerB under the
same name: handlerB is the single reachable entry. -/
theorem registry_last_wins_witness :
    lookupAction [("n", handlerB)] (Value.str ("n")) = Option.some handlerB
    ∧ countKey ([("n", handlerB)] : List (String × PyFunc)) ("n") = 1 :=
  ((registry_last_wins ⟨[]⟩ ("n") ("n") handlerA handlerB ⟨[("n", handlerA)]⟩
      (by simp) rfl).2.2 ⟨[("n", handlerB)]⟩ rfl).2 rfl

/-- C7: a request without a next_action entry makes run log the warning
and produce no response and no error; the registry is untouched, run
yielding only the result and the log. -/
theorem run_missing_action_name (ex : ActionExecutor) (call : Msg)
    (h : getKey call ("next_action") = Option.none) :
    ex.run call = (RunResult.noResponse, [noActionLog]) := by
  simp [ActionExecutor.run, h, truthy]

/-- C7, witness: the missing-name theorem on a request holding only a
tracker. -/
theorem run_missing_action_name_witness :
    ActionExecutor.run ⟨[]⟩ [("tracker", Value.dict [])]
      = (RunResult.noResponse, [noActionLog]) :=
  run_missing_action_name ⟨[]⟩ [("tracker", Value.dict [])] rfl

/-- C10: a next_action entry equal to the empty string is falsy, so run
takes the missing-name branch: the warning is logged and no response
and no exception are produced, although the empty string is not a
registered name. -/
theorem run_empty_action_name (ex : ActionExecutor) (call : Msg)
    (h : getKey call ("next_action") = Option.some (Value.str (""))) :
    ex.run call = (RunResult.noResponse, [noActionLog]) := by
  simp [ActionExecutor.run, h, truthy]

/-- C10, witness: the empty-name theorem on a request naming the empty
action. -/
theorem run_empty_action_name_witness :
    ActionExecutor.run ⟨[]⟩ [("next_action", Value.str (""))]
      = (RunResult.noResponse, [noActionLog]) :=
  run_empty_action_name ⟨[]⟩ [("next_action", Value.str (""))] rfl

/-- C4: a request naming a truthy action absent from the registry makes
run raise the not-found error naming that action; no response record is
produced and no collected messages are returned. -/
theorem run_unknown_action_raises (ex : ActionExecutor) (call : Msg) (name : String)
    (hne : name ≠ "")
    (hget : getKey call ("next_action") = Option.some (Value.str name))
    (hlk : getKey ex.actions name = Option.none) :
    ex.run call
      = (RunResult.raised (notFoundMsg (Value.str name)),
         [receivedLog (Value.str name)]) := by
  simp [ActionExecutor.run, hget, truthy, hne, lookupAction, hlk]

/-- C4, witness: the unknown-action theorem on an empty registry and the
action name unknown_x. -/
theorem run_unknown_action_raises_witness :
    ActionExecutor.run ⟨[]⟩ [("next_action", Value.str ("unknown_x")), ("tracker", Value.dict [])]
      = (RunResult.raised (notFoundMsg (Value.str ("unknown_x"))),
         [receivedLog (Value.str ("unknown_x"))]) :=
  run_unknown_action_raises ⟨[]⟩
    [("next_action", Value.str ("unknown_x")), ("tracker", Value.dict [])]
    ("unknown_x") (by decide) rfl rfl

/-- C1: invoking run on a request naming a registered handler that
returns a list of raw events yields the response record whose events
are the validated returned events and whose responses are the messages
the handler emitted through the fresh collector. -/
theorem run_registered_handler (ex : ActionExecutor) (name : String) (f : PyFunc)
    (call : Msg) (l : List Value)
    (hne : name ≠ "")
    (hget : getKey call ("next_action") = Option.some (Value.str name))
    (hlk : getKey ex.actions name = Option.some f)
    (hev : (f.run ⟨[]⟩ (Tracker.from_dict ((getKey call ("tracker")).getD Value.none))
        ((getKey call ("domain")).getD (Value.dict []))).2 = Value.list l) :
    ex.run call
      = (RunResult.response (create_api_response
            (ActionExecutor.validate_events l (Value.str name)).1
            (f.run ⟨[]⟩ (Tracker.from_dict ((getKey call ("tracker")).getD Value.none))
              ((getKey call ("domain")).getD (Value.dict []))).1.messages),
         receivedLog (Value.str name)
           :: (ActionExecutor.validate_events l (Value.str name)).2
           ++ [finishedLog (Value.str name)]) := by
  simp only [ActionExecutor.run, hget, Option.getD_some]
  rw [if_pos (by simp [truthy, hne])]
  simp only [lookupAction, hlk, hev, normalize_list, pyIter]

/-- C1, witness: the end-to-end scenario: greet says hello and returns
the slot event; run returns exactly that event with the hello message. -/
theorem run_registered_handler_witness :
    ActionExecutor.run greetExec greetCall
      = (RunResult.response
          [("events", Value.list [slotEvent]),
           ("responses", Value.list [Value.dict [("text", Value.str ("hello"))]])],
         [receivedLog (Value.str ("greet")), finishedLog (Value.str ("greet"))]) := by
  have h := run_registered_handler greetExec ("greet") greetHandler greetCall [slotEvent]
    (by decide) rfl rfl rfl
  exact h.trans (by rfl)

end RasaSdk
